import Mathlib

/-!
Verification of the job-ranking pipeline (`rank_jobs_w_claude.py`).

The Python source is shallowly embedded below: pure string manipulation is
translated operation-by-operation (`str.split`, `str.strip`, `int(...)`,
`json.loads`, `urllib.parse.urlparse(...).netloc`), the external
analysis-service call is abstracted as an `ApiOutcome` (its response text on
success, the exception text on failure), and file writes are modelled as an
update of a path-indexed store.  Job records follow the `JobListing`
dataclass's annotated field types (str / int); JSON values whose runtime type
falls outside those annotations are noted where relevant.
-/

/-! ### Models of the Python string primitives used by the script -/

/-- Python whitespace characters recognised by `str.strip()`. -/
def pyWsChar (c : Char) : Bool :=
  c == ' ' || c == '\t' || c == '\n' || c == '\r' ||
  c == Char.ofNat 11 || c == Char.ofNat 12

/-- First index at which `needle` occurs in `hay` (leftmost match), as used by
`str.find`/`in`/`str.split`. -/
def findSub (needle hay : List Char) : Option Nat :=
  (List.range (hay.length + 1)).find? (fun i => needle.isPrefixOf (hay.drop i))

/-- Model of Python `sub in s` (substring containment). -/
def pyContains (s sub : String) : Bool :=
  (findSub sub.data s.data).isSome

/-- Model of Python `s.startswith(pre)`. -/
def pyStartswith (s pre : String) : Bool :=
  pre.data.isPrefixOf s.data

def pySplitAux (sep : List Char) : Nat → List Char → List (List Char)
  | 0, cs => [cs]
  | fuel + 1, cs =>
    match findSub sep cs with
    | Option.none => [cs]
    | some i => cs.take i :: pySplitAux sep fuel (cs.drop (i + sep.length))

/-- Model of Python `s.split(sep)` for a non-empty separator: split at every
non-overlapping occurrence, left to right, keeping empty pieces. -/
def pySplit (s sep : String) : List String :=
  (pySplitAux sep.data (s.data.length + 1) s.data).map (fun l => String.mk l)

/-- Strip characters satisfying `p` from both ends of a string
(model of Python `str.strip` with an explicit character class). -/
def pyStripP (p : Char → Bool) (s : String) : String :=
  String.mk (((s.data.dropWhile p).reverse.dropWhile p).reverse)

/-- Model of Python `s.strip()` (whitespace on both ends). -/
def pyStrip (s : String) : String := pyStripP pyWsChar s

/-- Model of Python `s.strip('"')` (double-quote characters on both ends). -/
def pyStripQuotes (s : String) : String := pyStripP (fun c => c == '"') s

/-- Model of Python `s.replace(old, new)` for a non-empty `old`
(every occurrence replaced). -/
def pyReplace (s old new : String) : String :=
  String.intercalate new (pySplit s old)

/-- Model of Python `s.lower()` (ASCII case folding suffices here). -/
def pyLower (s : String) : String := String.mk (s.data.map Char.toLower)

/-- Model of Python `s.capitalize()`: first character upper-cased, the rest
lower-cased. -/
def pyCapitalize (s : String) : String :=
  match s.data with
  | [] => ""
  | c :: rest => String.mk (c.toUpper :: rest.map Char.toLower)

def digitsValAux : Nat → List Char → Option Nat
  | acc, [] => some acc
  | acc, '_' :: c :: rest =>
    if c.isDigit then digitsValAux (acc * 10 + (c.toNat - 48)) rest else Option.none
  | acc, c :: rest =>
    if c.isDigit then digitsValAux (acc * 10 + (c.toNat - 48)) rest else Option.none

/-- Decimal digit run with single underscores allowed between digits, as
accepted by Python `int(...)`. -/
def digitsVal : List Char → Option Nat
  | [] => Option.none
  | c :: rest =>
    if c.isDigit then digitsValAux (c.toNat - 48) rest else Option.none

/-- Model of Python `int(s)` on a string: surrounding whitespace allowed, an
optional sign, then decimal digits (single underscores between digits allowed);
`Option.none` models the raised `ValueError`. -/
def pyInt (s : String) : Option Int :=
  let cs := ((s.data.dropWhile pyWsChar).reverse.dropWhile pyWsChar).reverse
  match cs with
  | '+' :: rest => (digitsVal rest).map Int.ofNat
  | '-' :: rest => (digitsVal rest).map (fun n => -(Int.ofNat n))
  | rest => (digitsVal rest).map Int.ofNat

/-! ### Model of `json.loads`

Python decodes JSON into dicts / lists / strings / ints / floats / bools /
`None`.  Floats are carried as their raw lexeme (no claim inspects a float
value).  `jsonLoads` returns `Option.none` exactly where `json.loads` raises
`json.JSONDecodeError`. -/

inductive PyValue where
  | int (n : Int)
  | float (lexeme : String)
  | str (s : String)
  | bool (b : Bool)
  | null
  | list (xs : List PyValue)
  | dict (kvs : List (String × PyValue))

/-- JSON inter-token whitespace accepted by `json.loads`. -/
def jWsChar (c : Char) : Bool :=
  c == ' ' || c == '\t' || c == '\n' || c == '\r'

def skipJWs (cs : List Char) : List Char := cs.dropWhile jWsChar

def hexVal (c : Char) : Option Nat :=
  if c.isDigit then some (c.toNat - 48)
  else if 'a' ≤ c && c ≤ 'f' then some (c.toNat - 97 + 10)
  else if 'A' ≤ c && c ≤ 'F' then some (c.toNat - 65 + 10)
  else Option.none

/-- Body of a JSON string literal (opening quote already consumed); rejects
raw control characters and invalid escapes, as the strict `json.loads` does.
Lone `\uXXXX` escapes are mapped through `Char.ofNat`. -/
def parseJStringAux : Nat → List Char → List Char → Option (String × List Char)
  | 0, _, _ => Option.none
  | _ + 1, _, [] => Option.none
  | fuel + 1, acc, c :: cs =>
    if c == '"' then some (String.mk acc.reverse, cs)
    else if c == '\\' then
      match cs with
      | '"' :: rest => parseJStringAux fuel ('"' :: acc) rest
      | '\\' :: rest => parseJStringAux fuel ('\\' :: acc) rest
      | '/' :: rest => parseJStringAux fuel ('/' :: acc) rest
      | 'b' :: rest => parseJStringAux fuel (Char.ofNat 8 :: acc) rest
      | 'f' :: rest => parseJStringAux fuel (Char.ofNat 12 :: acc) rest
      | 'n' :: rest => parseJStringAux fuel ('\n' :: acc) rest
      | 'r' :: rest => parseJStringAux fuel ('\r' :: acc) rest
      | 't' :: rest => parseJStringAux fuel ('\t' :: acc) rest
      | 'u' :: h1 :: h2 :: h3 :: h4 :: rest =>
        match hexVal h1, hexVal h2, hexVal h3, hexVal h4 with
        | some a, some b, some c2, some d =>
          parseJStringAux fuel (Char.ofNat (((a * 16 + b) * 16 + c2) * 16 + d) :: acc) rest
        | _, _, _, _ => Option.none
      | _ => Option.none
    else if c.toNat < 32 then Option.none
    else parseJStringAux fuel (c :: acc) cs

def digitsToNat (cs : List Char) : Nat :=
  cs.foldl (fun acc c => acc * 10 + (c.toNat - 48)) 0

/-- A JSON number token: `-?(0|[1-9][0-9]*)(\.[0-9]+)?([eE][+-]?[0-9]+)?`.
Pure integer tokens decode to `PyValue.int`; anything with a fraction or
exponent decodes to a float (lexeme kept verbatim). -/
def parseJNumber (cs : List Char) : Option (PyValue × List Char) :=
  let signLen : Nat := if cs.headD ' ' == '-' then 1 else 0
  let body := cs.drop signLen
  let intDigits := body.takeWhile Char.isDigit
  let rest1 := body.dropWhile Char.isDigit
  if intDigits.isEmpty then Option.none
  else if intDigits.length > 1 && intDigits.headD '0' == '0' then Option.none
  else
    match rest1 with
    | '.' :: r =>
      let fd := r.takeWhile Char.isDigit
      let rest2 := r.dropWhile Char.isDigit
      if fd.isEmpty then Option.none
      else
        match rest2 with
        | e :: r2 =>
          if e == 'e' || e == 'E' then
            let esignLen : Nat := if r2.headD ' ' == '+' || r2.headD ' ' == '-' then 1 else 0
            let ed := (r2.drop esignLen).takeWhile Char.isDigit
            let rest3 := (r2.drop esignLen).dropWhile Char.isDigit
            if ed.isEmpty then Option.none
            else
              let len := signLen + intDigits.length + 1 + fd.length + 1 + esignLen + ed.length
              some (PyValue.float (String.mk (cs.take len)), rest3)
          else
            some (PyValue.float (String.mk (cs.take (signLen + intDigits.length + 1 + fd.length))), rest2)
        | [] =>
          some (PyValue.float (String.mk (cs.take (signLen + intDigits.length + 1 + fd.length))), [])
    | e :: r2 =>
      if e == 'e' || e == 'E' then
        let esignLen : Nat := if r2.headD ' ' == '+' || r2.headD ' ' == '-' then 1 else 0
        let ed := (r2.drop esignLen).takeWhile Char.isDigit
        let rest3 := (r2.drop esignLen).dropWhile Char.isDigit
        if ed.isEmpty then Option.none
        else
          let len := signLen + intDigits.length + 1 + esignLen + ed.length
          some (PyValue.float (String.mk (cs.take len)), rest3)
      else
        let n : Int := Int.ofNat (digitsToNat intDigits)
        some (PyValue.int (if signLen == 1 then -n else n), rest1)
    | [] =>
      let n : Int := Int.ofNat (digitsToNat intDigits)
      some (PyValue.int (if signLen == 1 then -n else n), [])

mutual

/-- One JSON value starting at `cs` (leading whitespace skipped here), plus
the unconsumed remainder.  Mirrors the strict `json.loads` grammar, including
its non-standard acceptance of `NaN`, `Infinity` and `-Infinity`. -/
def parseJValue : Nat → List Char → Option (PyValue × List Char)
  | 0, _ => Option.none
  | fuel + 1, cs0 =>
    let cs := skipJWs cs0
    match cs with
    | [] => Option.none
    | c :: rest =>
      if c == '"' then
        match parseJStringAux (rest.length + 1) [] rest with
        | some (s, r) => some (PyValue.str s, r)
        | Option.none => Option.none
      else if c == Char.ofNat 123 then
        let r1 := skipJWs rest
        match r1 with
        | d :: r2 => if d == Char.ofNat 125 then some (PyValue.dict [], r2) else parseJMembers fuel r1
        | [] => Option.none
      else if c == '[' then
        let r1 := skipJWs rest
        match r1 with
        | d :: r2 => if d == ']' then some (PyValue.list [], r2) else
            match parseJElems fuel r1 with
            | some (xs, r3) => some (PyValue.list xs, r3)
            | Option.none => Option.none
        | [] => Option.none
      else if ['t', 'r', 'u', 'e'].isPrefixOf cs then
        some (PyValue.bool true, cs.drop 4)
      else if ['f', 'a', 'l', 's', 'e'].isPrefixOf cs then
        some (PyValue.bool false, cs.drop 5)
      else if ['n', 'u', 'l', 'l'].isPrefixOf cs then
        some (PyValue.null, cs.drop 4)
      else if ['N', 'a', 'N'].isPrefixOf cs then
        some (PyValue.float "nan", cs.drop 3)
      else if ['I', 'n', 'f', 'i', 'n', 'i', 't', 'y'].isPrefixOf cs then
        some (PyValue.float "inf", cs.drop 8)
      else if ['-', 'I', 'n', 'f', 'i', 'n', 'i', 't', 'y'].isPrefixOf cs then
        some (PyValue.float "-inf", cs.drop 9)
      else if c == '-' || c.isDigit then
        parseJNumber cs
      else Option.none

/-- Members of a JSON object after at least one member is known to follow. -/
def parseJMembers : Nat → List Char → Option (PyValue × List Char)
  | 0, _ => Option.none
  | fuel + 1, cs =>
    match skipJWs cs with
    | '"' :: r1 =>
      match parseJStringAux (r1.length + 1) [] r1 with
      | some (key, r2) =>
        match skipJWs r2 with
        | ':' :: r3 =>
          match parseJValue fuel r3 with
          | some (v, r4) =>
            match skipJWs r4 with
            | ',' :: r5 =>
              match parseJMembers fuel r5 with
              | some (PyValue.dict kvs, r6) => some (PyValue.dict ((key, v) :: kvs), r6)
              | _ => Option.none
            | d :: r5 =>
              if d == Char.ofNat 125 then some (PyValue.dict [(key, v)], r5) else Option.none
            | [] => Option.none
          | Option.none => Option.none
        | _ => Option.none
      | Option.none => Option.none
    | _ => Option.none

/-- Elements of a JSON array after at least one element is known to follow. -/
def parseJElems : Nat → List Char → Option (List PyValue × List Char)
  | 0, _ => Option.none
  | fuel + 1, cs =>
    match parseJValue fuel cs with
    | some (v, r1) =>
      match skipJWs r1 with
      | ',' :: r2 =>
        match parseJElems fuel r2 with
        | some (xs, r3) => some (v :: xs, r3)
        | Option.none => Option.none
      | ']' :: r2 => some ([v], r2)
      | _ => Option.none
    | Option.none => Option.none

end

/-- Model of `json.loads`: decode one JSON document, allowing only trailing
whitespace afterwards; `Option.none` models a raised `json.JSONDecodeError`. -/
def jsonLoads (s : String) : Option PyValue :=
  match parseJValue (s.data.length + 1) s.data with
  | some (v, rest) => if (skipJWs rest).isEmpty then some v else Option.none
  | Option.none => Option.none

/-! ### Data model (`JobListing` dataclass, lines 32-39) -/

/-- The `JobListing` dataclass with its annotated field types and defaults. -/
structure JobListing where
  title : String
  company : String
  url : String
  description : String := ""
  match_score : Int := 0
  analysis : String := ""
deriving DecidableEq

/-- The (score, analysis) pair returned by `analyze_job_listing`
(the spec's ScoreResult). -/
structure ScoreResult where
  score : Int
  analysis : String
deriving DecidableEq

/-- Observable outcome of the `self.client.messages.create(...)` call inside
`analyze_job_listing` (lines 113-120): either the response text
(`response.content[0].text`) or the raised exception's `str(e)`.  The prompt
built from the resume and job determines which response the live service
produces; here the outcome abstracts that external interaction. -/
inductive ApiOutcome where
  | success (text : String)
  | failure (err : String)
deriving DecidableEq

/-! ### `analyze_job_listing` (lines 80-147) -/

/-- Python dict lookup (`result[k]`): for duplicate JSON keys the last binding
wins, as in `json.loads`. -/
def dictGet (kvs : List (String × PyValue)) (k : String) : Option PyValue :=
  ((kvs.filter (fun kv => kv.1 == k)).getLast?).map (fun kv => kv.2)

/-- Models lines 123-125: `result["match_score"], result["analysis"]` on the
decoded JSON value.  `Except.error msg` models the raised exception with
`str(e) = msg` (a `KeyError` for a missing key, a `TypeError` when the decoded
value is not subscriptable by a string).  A present `match_score`/`analysis`
value whose runtime type is not the `int`/`str` annotated on the dataclass is
outside this typed embedding and is likewise mapped to the error branch; no
theorem below depends on that corner. -/
def extractFields : PyValue → Except String (Int × String)
  | PyValue.dict kvs =>
    match dictGet kvs "match_score" with
    | Option.none => Except.error "\x27match_score\x27"
    | some sv =>
      match dictGet kvs "analysis" with
      | Option.none => Except.error "\x27analysis\x27"
      | some av =>
        match sv, av with
        | PyValue.int n, PyValue.str a => Except.ok (n, a)
        | _, _ => Except.error "unsupported response value type"
  | PyValue.str _ => Except.error "string indices must be integers"
  | PyValue.list _ => Except.error "list indices must be integers, not str"
  | _ => Except.error "object is not subscriptable"

/-- Models line 137, the heuristic extraction inside the inner `try`:
`content.split("match_score")[1].split(":")[1].split(",")[0].strip().strip('"')`
fed to `int(...)`.  `Option.none` models any exception caught by the bare
`except` (an `IndexError` from a missing piece or a `ValueError` from
`int`). -/
def scrapeExtract (content : String) : Option Int :=
  match (pySplit content "match_score").get? 1 with
  | Option.none => Option.none
  | some seg =>
    match (pySplit seg ":").get? 1 with
    | Option.none => Option.none
    | some seg2 =>
      pyInt (pyStripQuotes (pyStrip ((pySplit seg2 ",").headD "")))

/-- Models lines 133-140: score 5 by default, replaced by the scraped integer
when `"match_score" in content` and the extraction succeeds. -/
def scrapeScore (content : String) : Int :=
  if pyContains content "match_score" then
    match scrapeExtract content with
    | some n => n
    | Option.none => 5
  else 5

/-- The response handling of `analyze_job_listing` (lines 111-147), as a
function of the service-call outcome:
strict JSON decode and field extraction; on `json.JSONDecodeError` the scrape
fallback with the raw text as analysis; on any other exception — including a
failed service call — `(0, "Analysis failed: " ++ str(e))`. -/
def analyzeResponse : ApiOutcome → ScoreResult
  | ApiOutcome.failure e => ⟨0, "Analysis failed: " ++ e⟩
  | ApiOutcome.success raw =>
    match jsonLoads raw with
    | some v =>
      match extractFields v with
      | Except.ok (n, a) => ⟨n, a⟩
      | Except.error msg => ⟨0, "Analysis failed: " ++ msg⟩
    | Option.none => ⟨scrapeScore raw, raw⟩

/-- `JobRanker.analyze_job_listing` (lines 80-147).  The resume and the job
only shape the prompt sent to the service; the returned `ScoreResult` is a
function of the call's outcome.  Totality of this definition reflects that
every failure path returns instead of raising. -/
def analyze_job_listing (resume : String) (job : JobListing) (o : ApiOutcome) : ScoreResult :=
  analyzeResponse o

/-! ### `_extract_company_name` (lines 291-328) and its `urlparse` model -/

/-- Characters permitted in a URL scheme after the initial letter. -/
def schemeChar (c : Char) : Bool :=
  c.isAlphanum || c == '+' || c == '-' || c == '.'

/-- Model of `urllib.parse.urlparse(url).netloc`: ASCII tab/CR/LF removed
anywhere, leading and trailing C0-control-or-space stripped, an optional
`scheme:` consumed, and the authority read after `//` up to `/`, `?` or `#`.
`Except.error` models the `ValueError` raised on unbalanced IPv6 brackets.
(The NFKC netloc character check of newer CPython is not modelled.) -/
def urlparseNetloc (url : String) : Except String String :=
  let cs0 := url.data.filter (fun c => !(c == '\t' || c == '\n' || c == '\r'))
  let cs := ((cs0.dropWhile (fun c => c.toNat ≤ 32)).reverse.dropWhile
      (fun c => c.toNat ≤ 32)).reverse
  let rest :=
    match findSub [':'] cs with
    | some i =>
      if 0 < i && (cs.headD ' ').isAlpha && (cs.take i).all schemeChar
      then cs.drop (i + 1) else cs
    | Option.none => cs
  match rest with
  | '/' :: '/' :: r =>
    let netloc := r.takeWhile (fun c => !(c == '/' || c == '?' || c == '#'))
    if (netloc.contains '[' && !netloc.contains ']')
        || (netloc.contains ']' && !netloc.contains '[') then
      Except.error "Invalid IPv6 URL"
    else Except.ok (String.mk netloc)
  | _ => Except.ok ""

/-- `JobRanker._extract_company_name` (lines 291-328): the title rule
(`" hiring "`) first, then canned labels for known job boards, then the
second-to-last host label capitalized; `"Unknown Company"` on any exception
(in this model, the `ValueError` from `urlparse`). -/
def extract_company_name (url : String) (title : String) : String :=
  if pyContains title " hiring " then
    let company := pyStrip ((pySplit title " hiring ").headD "")
    if pyStartswith company "Jobs at " then pyReplace company "Jobs at " ""
    else company
  else
    match urlparseNetloc url with
    | Except.error _ => "Unknown Company"
    | Except.ok netloc =>
      let domain := pyLower netloc
      if pyContains domain "linkedin.com" then "LinkedIn Job"
      else if pyContains domain "glassdoor.com" then "Glassdoor Job"
      else if pyContains domain "indeed.com" then "Indeed Job"
      else if pyContains domain "greenhouse.io" then "Greenhouse Job"
      else
        let parts := pySplit domain "."
        if 2 ≤ parts.length then pyCapitalize ((parts.drop (parts.length - 2)).headD "")
        else pyCapitalize domain

/-! ### `parse_google_search_json` (lines 247-289) -/

/-- One entry of the `items` list of a search snapshot. `malformed` stands for
an item that is not a JSON object, on which `item.get` raises an
`AttributeError` (caught per item).  Object entries carry the optional
string-valued `title` / `link` / `snippet` fields of the snapshot data model;
values of other runtime types are outside this typed embedding. -/
inductive SearchItem where
  | malformed
  | entry (title : Option String) (link : Option String) (snippet : Option String)
deriving DecidableEq

/-- A Google Custom Search snapshot: the `items` key may be absent. -/
structure SearchSnapshot where
  items : Option (List SearchItem)

/-- The per-item loop of `parse_google_search_json` (lines 261-287): defaults
`"Unknown Position"` / `""` / `""`, company from `_extract_company_name`, the
snippet stored untruncated; an in-item exception skips only that item. -/
def parseItemsLoop : List SearchItem → List JobListing
  | [] => []
  | SearchItem.malformed :: rest => parseItemsLoop rest
  | SearchItem.entry t u sn :: rest =>
    let title := t.getD "Unknown Position"
    let url := u.getD ""
    let snippet := sn.getD ""
    ⟨title, extract_company_name url title, url, snippet, 0, ""⟩ :: parseItemsLoop rest

/-- `JobRanker.parse_google_search_json` (lines 247-289): empty result when
`items` is absent or empty (line 253), otherwise the per-item loop. -/
def parse_google_search_json (s : SearchSnapshot) : List JobListing :=
  match s.items with
  | Option.none => []
  | some l => if l.isEmpty then [] else parseItemsLoop l

/-! ### `rank_jobs` (lines 149-174) -/

/-- Observable steps of the `rank_jobs` loop: the i-th analysis call (1-based,
as `enumerate(jobs, 1)` counts) and the `time.sleep(delay_seconds)` pacing
delay. -/
inductive PipelineEvent where
  | analyzeCall (i : Nat)
  | sleepDelay
deriving DecidableEq, BEq

/-- The loop of `rank_jobs` (lines 156-169) over the remaining jobs, where `i`
is the 1-based position of the next job and `n = len(jobs)`: write the
analysis result into the record, then sleep unless `i = n`.  Returns the
updated records together with the event trace. -/
def rankLoop (resume : String) (oracle : Nat → ApiOutcome) (n : Nat) :
    Nat → List JobListing → List JobListing × List PipelineEvent
  | _, [] => ([], [])
  | i, j :: rest =>
    let r := analyze_job_listing resume j (oracle i)
    let j2 := { j with match_score := r.score, analysis := r.analysis }
    let p := rankLoop resume oracle n (i + 1) rest
    (j2 :: p.1,
      (PipelineEvent.analyzeCall i ::
        (if i < n then [PipelineEvent.sleepDelay] else [])) ++ p.2)

/-- The records after the analysis loop of `rank_jobs`, before sorting. -/
def analyzeAll (resume : String) (oracle : Nat → ApiOutcome)
    (jobs : List JobListing) : List JobListing :=
  (rankLoop resume oracle jobs.length 1 jobs).1

/-- The event trace of one `rank_jobs` run. -/
def rankEvents (resume : String) (oracle : Nat → ApiOutcome)
    (jobs : List JobListing) : List PipelineEvent :=
  (rankLoop resume oracle jobs.length 1 jobs).2

/-- Stable insertion of a job into a list already sorted by score descending:
the job goes in front of the first element whose score is `≤` its own. -/
def insertJobDesc (j : JobListing) : List JobListing → List JobListing
  | [] => [j]
  | k :: l =>
    if k.match_score ≤ j.match_score then j :: k :: l
    else k :: insertJobDesc j l

/-- Model of `sorted(jobs, key=lambda x: x.match_score, reverse=True)`
(line 173).  CPython's `sorted` is a stable sort; for a total preorder on keys
a stable sort's output is unique, so this stable insertion sort computes
exactly it. -/
def sortJobsDesc : List JobListing → List JobListing
  | [] => []
  | j :: l => insertJobDesc j (sortJobsDesc l)

/-- `JobRanker.rank_jobs` (lines 149-174): analyze every job in order, writing
scores and analyses into the records, then sort by score descending.  The
`delay_seconds` argument only scales the sleeps recorded in `rankEvents` and
does not affect the records. -/
def rank_jobs (resume : String) (oracle : Nat → ApiOutcome)
    (jobs : List JobListing) : List JobListing :=
  sortJobsDesc (analyzeAll resume oracle jobs)

/-! ### `save_results` (lines 193-215) -/

/-- One object of the saved JSON array (lines 201-208): exactly the fields
rank / match_score / company / title / url / analysis. -/
structure SavedEntry where
  rank : Nat
  match_score : Int
  company : String
  title : String
  url : String
  analysis : String
deriving DecidableEq

/-- The `results` list built by `save_results` with rank counting from `i`. -/
def resultsFrom (i : Nat) : List JobListing → List SavedEntry
  | [] => []
  | j :: l => ⟨i, j.match_score, j.company, j.title, j.url, j.analysis⟩ :: resultsFrom (i + 1) l

/-- `JobRanker.save_results` (lines 193-215): the file system is a map from
path to stored content, a file's content being the structured JSON array
(pretty-printing is not modelled); `open(filename, "w")` truncates, so the
write replaces whatever was at `filename`. -/
def save_results (fs : String → Option (List SavedEntry))
    (ranked : List JobListing) (filename : String) : String → Option (List SavedEntry) :=
  fun p => if p = filename then some (resultsFrom 1 ranked) else fs p

/-- The scrape recipe as worded by the specification (claim C3): after the
first occurrence of `"match_score"`, take the text after the next colon and
before the next comma, strip whitespace and surrounding quote characters,
parse as an integer; score 5 when `"match_score"` is absent or on any failure.
Stated only for comparison with the source-derived `scrapeScore`. -/
def scrapeSpecWording (content : String) : Int :=
  match findSub "match_score".data content.data with
  | Option.none => 5
  | some i =>
    let tail := content.data.drop (i + "match_score".data.length)
    match findSub [':'] tail with
    | Option.none => 5
    | some k =>
      let beforeComma := (tail.drop (k + 1)).takeWhile (fun c => !(c == ','))
      match pyInt (pyStripQuotes (pyStrip (String.mk beforeComma))) with
      | some n => n
      | Option.none => 5

/-- Index of an analysis call, for reading the call sequence off a trace. -/
def analyzeIdx : PipelineEvent → Option Nat
  | PipelineEvent.analyzeCall i => some i
  | PipelineEvent.sleepDelay => Option.none

/-- Whether a decoded response value is a JSON object carrying both the
`match_score` and the `analysis` key (the shape the success path of
`analyze_job_listing` reads). -/
def hasScoreAndAnalysisKeys : PyValue → Bool
  | PyValue.dict kvs => (dictGet kvs "match_score").isSome && (dictGet kvs "analysis").isSome
  | _ => false

/-- Fixture for the spec's sorting example: five records A..E. -/
def exampleJobs : List JobListing :=
  [⟨"T", "A", "", "", 0, ""⟩, ⟨"T", "B", "", "", 0, ""⟩, ⟨"T", "C", "", "", 0, ""⟩,
   ⟨"T", "D", "", "", 0, ""⟩, ⟨"T", "E", "", "", 0, ""⟩]

/-- Fixture for the spec's sorting example: well-formed responses scoring the
five records 3, 9, 1, 9, 5 in input order (calls are 1-based). -/
def exampleOracle : Nat → ApiOutcome := fun i =>
  ApiOutcome.success
    ("\x7b\"match_score\": " ++ toString (([3, 9, 1, 9, 5].get? (i - 1)).getD 0) ++
      ", \"analysis\": \"a\"\x7d")

/-! ### Helper lemmas -/

theorem insertJobDesc_perm (j : JobListing) (l : List JobListing) :
    List.Perm (insertJobDesc j l) (j :: l) := by
  induction l with
  | nil => exact List.Perm.refl _
  | cons k l ih =>
    by_cases h : k.match_score ≤ j.match_score
    · simp [insertJobDesc, h]
    · simp only [insertJobDesc, if_neg h]
      exact (ih.cons k).trans (List.Perm.swap j k l)

theorem sortJobsDesc_perm (l : List JobListing) : List.Perm (sortJobsDesc l) l := by
  induction l with
  | nil => exact List.Perm.refl _
  | cons j l ih =>
    exact (insertJobDesc_perm j (sortJobsDesc l)).trans (ih.cons j)

theorem pairwise_insertJobDesc (j : JobListing) (l : List JobListing)
    (h : l.Pairwise (fun a b => b.match_score ≤ a.match_score)) :
    (insertJobDesc j l).Pairwise (fun a b => b.match_score ≤ a.match_score) := by
  induction l with
  | nil => simp [insertJobDesc]
  | cons k l ih =>
    rcases List.pairwise_cons.mp h with ⟨hk, hl⟩
    by_cases hle : k.match_score ≤ j.match_score
    · simp only [insertJobDesc, if_pos hle]
      refine List.pairwise_cons.mpr ⟨?_, h⟩
      intro b hb
      rcases List.mem_cons.mp hb with rfl | hb2
      · exact hle
      · exact le_trans (hk b hb2) hle
    · simp only [insertJobDesc, if_neg hle]
      refine List.pairwise_cons.mpr ⟨?_, ih hl⟩
      intro b hb
      rcases List.mem_cons.mp ((insertJobDesc_perm j l).mem_iff.mp hb) with rfl | hb2
      · omega
      · exact hk b hb2

theorem sortJobsDesc_sorted (l : List JobListing) :
    (sortJobsDesc l).Pairwise (fun a b => b.match_score ≤ a.match_score) := by
  induction l with
  | nil => simp [sortJobsDesc]
  | cons j l ih => exact pairwise_insertJobDesc j (sortJobsDesc l) ih

theorem filter_insertJobDesc (v : Int) (j : JobListing) (l : List JobListing) :
    (insertJobDesc j l).filter (fun k => k.match_score == v) =
      (j :: l).filter (fun k => k.match_score == v) := by
  induction l with
  | nil => rfl
  | cons k l ih =>
    by_cases hle : k.match_score ≤ j.match_score
    · simp [insertJobDesc, hle]
    · simp only [insertJobDesc, if_neg hle]
      by_cases hj : j.match_score = v
      · by_cases hk2 : k.match_score = v
        · omega
        · simp only [List.filter_cons, ih, List.filter_cons]
          simp [hj, hk2]
      · by_cases hk2 : k.match_score = v
        · simp only [List.filter_cons, ih, List.filter_cons]
          simp [hj, hk2]
        · simp only [List.filter_cons, ih, List.filter_cons]
          simp [hj, hk2]

theorem sortJobsDesc_filter (v : Int) (l : List JobListing) :
    (sortJobsDesc l).filter (fun k => k.match_score == v) =
      l.filter (fun k => k.match_score == v) := by
  induction l with
  | nil => rfl
  | cons j l ih =>
    calc (insertJobDesc j (sortJobsDesc l)).filter (fun k => k.match_score == v)
        = (j :: sortJobsDesc l).filter (fun k => k.match_score == v) :=
          filter_insertJobDesc v j (sortJobsDesc l)
      _ = (j :: l).filter (fun k => k.match_score == v) := by
          simp only [List.filter_cons, ih]

theorem mem_rankLoop_fst (resume : String) (oracle : Nat → ApiOutcome) (n : Nat) :
    ∀ (l : List JobListing) (i : Nat) (j : JobListing),
      j ∈ (rankLoop resume oracle n i l).1 →
      ∃ k, j.match_score = (analyzeResponse (oracle k)).score ∧
        j.analysis = (analyzeResponse (oracle k)).analysis := by
  intro l
  induction l with
  | nil => intro i j h; simp [rankLoop] at h
  | cons a l ih =>
    intro i j h
    simp only [rankLoop] at h
    rcases List.mem_cons.mp h with rfl | h2
    · exact ⟨i, rfl, rfl⟩
    · exact ih (i + 1) j h2

theorem analyzeCall_beq_sleepDelay (i : Nat) :
    (PipelineEvent.analyzeCall i == PipelineEvent.sleepDelay) = false := rfl

theorem sleepDelay_beq_self :
    (PipelineEvent.sleepDelay == PipelineEvent.sleepDelay) = true := rfl

theorem rankLoop_snd_cons (resume : String) (oracle : Nat → ApiOutcome) (n i : Nat)
    (a : JobListing) (l : List JobListing) :
    (rankLoop resume oracle n i (a :: l)).2 =
      (PipelineEvent.analyzeCall i ::
        (if i < n then [PipelineEvent.sleepDelay] else [])) ++
        (rankLoop resume oracle n (i + 1) l).2 := rfl

theorem rankLoop_events (resume : String) (oracle : Nat → ApiOutcome) (n : Nat) :
    ∀ (l : List JobListing) (i : Nat), n + 1 = i + l.length →
      (rankLoop resume oracle n i l).2.count PipelineEvent.sleepDelay = l.length - 1
      ∧ (rankLoop resume oracle n i l).2.filterMap analyzeIdx = List.range' i l.length
      ∧ (l ≠ [] →
          (rankLoop resume oracle n i l).2.getLast? = some (PipelineEvent.analyzeCall n)) := by
  intro l
  induction l with
  | nil =>
    intro i hn
    refine ⟨rfl, by simp [rankLoop, List.range'], fun h => absurd rfl h⟩
  | cons a l ih =>
    intro i hn
    cases l with
    | nil =>
      have hni : n = i := by simp at hn; omega
      have hnot : ¬ i < n := by omega
      rw [rankLoop_snd_cons]
      refine ⟨?_, ?_, ?_⟩
      · simp [if_neg hnot, rankLoop, List.count_cons, analyzeCall_beq_sleepDelay]
      · simp [if_neg hnot, rankLoop, List.filterMap_cons, analyzeIdx, List.range']
      · intro _
        simp [if_neg hnot, rankLoop, hni]
    | cons b l2 =>
      have hlt : i < n := by simp at hn; omega
      have hrec := ih (i + 1) (by simp at hn ⊢; omega)
      rw [rankLoop_snd_cons]
      refine ⟨?_, ?_, ?_⟩
      · rw [List.count_append, hrec.1]
        simp [if_pos hlt, List.count_cons, analyzeCall_beq_sleepDelay, sleepDelay_beq_self]
        omega
      · rw [List.filterMap_append, hrec.2.1]
        simp [if_pos hlt, List.filterMap_cons, analyzeIdx, List.range']
      · intro _
        have hne : (rankLoop resume oracle n (i + 1) (b :: l2)).2 ≠ [] := by
          intro hemp
          have h2 := hrec.2.1
          rw [hemp] at h2
          simp [List.range'] at h2
        rw [List.getLast?_append_of_ne_nil _ hne]
        exact hrec.2.2 (by simp)

theorem resultsFrom_length : ∀ (l : List JobListing) (i : Nat),
    (resultsFrom i l).length = l.length := by
  intro l
  induction l with
  | nil => intro i; rfl
  | cons j l ih => intro i; simp [resultsFrom, ih]

theorem resultsFrom_getElem? : ∀ (l : List JobListing) (i k : Nat) (j : JobListing),
    l[k]? = some j →
    (resultsFrom i l)[k]? = some ⟨i + k, j.match_score, j.company, j.title, j.url, j.analysis⟩ := by
  intro l
  induction l with
  | nil => intro i k j h; simp at h
  | cons a l ih =>
    intro i k j h
    cases k with
    | zero =>
      simp at h
      subst h
      simp [resultsFrom]
    | succ k2 =>
      simp only [List.getElem?_cons_succ] at h
      have := ih (i + 1) k2 j h
      simp only [resultsFrom, List.getElem?_cons_succ]
      rw [this]
      have : i + 1 + k2 = i + (k2 + 1) := by omega
      rw [this]

theorem parseItemsLoop_eq_filterMap : ∀ l : List SearchItem,
    parseItemsLoop l = l.filterMap (fun it =>
      match it with
      | SearchItem.malformed => Option.none
      | SearchItem.entry t u sn =>
        some ⟨t.getD "Unknown Position",
              extract_company_name (u.getD "") (t.getD "Unknown Position"),
              u.getD "", sn.getD "", 0, ""⟩) := by
  intro l
  induction l with
  | nil => rfl
  | cons it l ih =>
    cases it with
    | malformed => simpa [parseItemsLoop, List.filterMap_cons] using ih
    | entry t u sn => simp [parseItemsLoop, List.filterMap_cons, ih]

theorem isPrefixOf_append_self (l r : List Char) : l.isPrefixOf (l ++ r) = true := by
  induction l with
  | nil => simp [List.isPrefixOf]
  | cons c l ih => simp [List.isPrefixOf, ih]

theorem pyStartswith_append (p r : String) : pyStartswith (p ++ r) p = true := by
  unfold pyStartswith
  rw [String.data_append]
  exact isPrefixOf_append_self p.data r.data

theorem analysisFailed_startswith (msg : String) :
    pyStartswith ("Analysis failed: " ++ msg) "Analysis failed:" = true := by
  have h : ("Analysis failed: " ++ msg) = "Analysis failed:" ++ (" " ++ msg) := by
    rw [← String.append_assoc]
    rw [show ("Analysis failed:" ++ " " : String) = "Analysis failed: " from by decide]
  rw [h]
  exact pyStartswith_append "Analysis failed:" (" " ++ msg)

theorem pySplit_of_not_contains (s sub : String) (h : pyContains s sub = false) :
    pySplit s sub = [String.mk s.data] := by
  unfold pyContains at h
  cases hf : findSub sub.data s.data with
  | none => simp [pySplit, pySplitAux, hf]
  | some i => rw [hf] at h; simp at h

theorem scrapeExtract_of_not_contains (s : String) (h : pyContains s "match_score" = false) :
    scrapeExtract s = Option.none := by
  unfold scrapeExtract
  rw [pySplit_of_not_contains s "match_score" h]
  rfl

theorem analyzeResponse_success (raw : String) :
    analyzeResponse (ApiOutcome.success raw) =
      match jsonLoads raw with
      | some v =>
        match extractFields v with
        | Except.ok (n, a) => ⟨n, a⟩
        | Except.error msg => ⟨0, "Analysis failed: " ++ msg⟩
      | Option.none => ⟨scrapeScore raw, raw⟩ := rfl

theorem extractFields_dict_eq (kvs : List (String × PyValue)) :
    extractFields (PyValue.dict kvs) =
      match dictGet kvs "match_score" with
      | Option.none => Except.error "\x27match_score\x27"
      | some sv =>
        match dictGet kvs "analysis" with
        | Option.none => Except.error "\x27analysis\x27"
        | some av =>
          match sv, av with
          | PyValue.int n, PyValue.str a => Except.ok (n, a)
          | _, _ => Except.error "unsupported response value type" := rfl

theorem analyzeResponse_decoded (raw : String) (v : PyValue) (h : jsonLoads raw = some v) :
    analyzeResponse (ApiOutcome.success raw) =
      match extractFields v with
      | Except.ok (n, a) => ⟨n, a⟩
      | Except.error msg => ⟨0, "Analysis failed: " ++ msg⟩ := by
  rw [analyzeResponse_success, h]

/-! ### Claims -/

/-- Claim C1, counterexample: `rank_jobs` copies the service-reported score
and analysis into the record without clamping or emptiness checks, so a
response of `match_score` 11 with an empty analysis leaves a record with
`match_score = 11 ∉ [0,10]` and an empty analysis, refuting the claimed
invariant. -/
theorem C1_rank_jobs_invariant_counterexample :
    ¬ ∀ j ∈ rank_jobs "resume"
        (fun _ => ApiOutcome.success "\x7b\"match_score\": 11, \"analysis\": \"\"\x7d")
        [⟨"Title", "Co", "u", "", 0, ""⟩],
      (0 ≤ j.match_score ∧ j.match_score ≤ 10) ∧ j.analysis ≠ "" := by
  decide

/-- Claim C1 as amended: after `rank_jobs` every record's score and analysis
are exactly those produced by `analyze_job_listing` for one of the calls, so
whenever every service interaction yields a score in [0,10] and a non-empty
analysis (as the failure path always does), every ranked record satisfies the
claimed invariant; the code itself enforces no clamping. -/
theorem C1_rank_jobs_invariant_amended (resume : String) (oracle : Nat → ApiOutcome)
    (jobs : List JobListing)
    (h : ∀ i, 0 ≤ (analyzeResponse (oracle i)).score
        ∧ (analyzeResponse (oracle i)).score ≤ 10
        ∧ (analyzeResponse (oracle i)).analysis ≠ "") :
    ∀ j ∈ rank_jobs resume oracle jobs,
      (0 ≤ j.match_score ∧ j.match_score ≤ 10) ∧ j.analysis ≠ "" := by
  intro j hj
  have hj2 : j ∈ analyzeAll resume oracle jobs :=
    (sortJobsDesc_perm (analyzeAll resume oracle jobs)).mem_iff.mp hj
  obtain ⟨k, hs, ha⟩ := mem_rankLoop_fst resume oracle jobs.length jobs 1 j hj2
  rcases h k with ⟨h1, h2, h3⟩
  rw [hs, ha]
  exact ⟨⟨h1, h2⟩, h3⟩

/-- Witness for the amended claim C1 at a concrete failing call: the failure
path yields score 0 and the non-empty message, so the invariant holds. -/
theorem C1_rank_jobs_invariant_amended_witness :
    (0 ≤ (⟨"T", "C", "u", "", 0, "Analysis failed: boom"⟩ : JobListing).match_score
      ∧ (⟨"T", "C", "u", "", 0, "Analysis failed: boom"⟩ : JobListing).match_score ≤ 10)
    ∧ (⟨"T", "C", "u", "", 0, "Analysis failed: boom"⟩ : JobListing).analysis ≠ "" := by
  have hgood : 0 ≤ (analyzeResponse (ApiOutcome.failure "boom")).score
      ∧ (analyzeResponse (ApiOutcome.failure "boom")).score ≤ 10
      ∧ (analyzeResponse (ApiOutcome.failure "boom")).analysis ≠ "" := by decide
  exact C1_rank_jobs_invariant_amended "r" (fun _ => ApiOutcome.failure "boom")
    [⟨"T", "C", "u", "", 0, ""⟩] (fun _ => hgood)
    (⟨"T", "C", "u", "", 0, "Analysis failed: boom"⟩ : JobListing) (by decide)

/-- Claim C2: `analyze_job_listing` is a total function into `ScoreResult`
(never throws), and when the service call itself fails it returns score 0
with an analysis embedding the error description — a string containing
"failed". -/
theorem C2_analyze_never_throws (resume : String) (job : JobListing) (e : String) :
    analyze_job_listing resume job (ApiOutcome.failure e) = ⟨0, "Analysis failed: " ++ e⟩
    ∧ ∃ pre post : String,
        (analyze_job_listing resume job (ApiOutcome.failure e)).analysis
          = pre ++ ("failed" ++ post) := by
  refine ⟨rfl, "Analysis ", ": " ++ e, ?_⟩
  show "Analysis failed: " ++ e = "Analysis " ++ ("failed" ++ (": " ++ e))
  rw [← String.append_assoc, ← String.append_assoc]
  rw [show ("Analysis " ++ "failed" ++ ": " : String) = "Analysis failed: " from by decide]

/-- Claim C3, counterexample: on the non-JSON body
`oops match_score: 7:8, end` the code's split chain truncates at the second
colon and returns score 7, while the claim's recipe — the text after the next
colon and before the next comma, stripped, parsed as an integer, else 5 —
yields 5; the claim as stated is therefore false at this input. -/
theorem C3_scrape_counterexample :
    jsonLoads "oops match_score: 7:8, end" = Option.none
    ∧ analyzeResponse (ApiOutcome.success "oops match_score: 7:8, end")
        = ⟨7, "oops match_score: 7:8, end"⟩
    ∧ scrapeSpecWording "oops match_score: 7:8, end" = 5
    ∧ (analyzeResponse (ApiOutcome.success "oops match_score: 7:8, end")).score
        ≠ scrapeSpecWording "oops match_score: 7:8, end" := by
  refine ⟨by rfl, by decide, by decide, by decide⟩

/-- Claim C3 as amended: when strict JSON decoding fails, the raw response
text is returned as the analysis; the score is 5 when `"match_score"` does not
occur in the text, otherwise it is the integer produced by the split chain
`split("match_score")[1].split(":")[1].split(",")[0].strip().strip(quote)` —
i.e. the text between the next two colons cut at the first comma — with 5 on
any failure of that extraction; in particular a non-JSON body containing
`match_score": 7,` yields score 7 with the raw body as analysis. -/
theorem C3_scrape_amended (raw : String) (h : jsonLoads raw = Option.none) :
    ((analyzeResponse (ApiOutcome.success raw)).analysis = raw
      ∧ (pyContains raw "match_score" = false →
          (analyzeResponse (ApiOutcome.success raw)).score = 5)
      ∧ (∀ n : Int, scrapeExtract raw = some n →
          (analyzeResponse (ApiOutcome.success raw)).score = n)
      ∧ (scrapeExtract raw = Option.none →
          (analyzeResponse (ApiOutcome.success raw)).score = 5))
    ∧ analyzeResponse (ApiOutcome.success "xx match_score\": 7, yy")
        = ⟨7, "xx match_score\": 7, yy"⟩ := by
  constructor
  · have hres : analyzeResponse (ApiOutcome.success raw) = ⟨scrapeScore raw, raw⟩ := by
      rw [analyzeResponse_success, h]
    refine ⟨by rw [hres], ?_, ?_, ?_⟩
    · intro hc
      rw [hres]
      simp [scrapeScore, hc]
    · intro n hn
      rw [hres]
      by_cases hc : pyContains raw "match_score"
      · simp [scrapeScore, hc, hn]
      · have hcf : pyContains raw "match_score" = false := by simpa using hc
        rw [scrapeExtract_of_not_contains raw hcf] at hn
        simp at hn
    · intro hn
      rw [hres]
      by_cases hc : pyContains raw "match_score"
      · simp [scrapeScore, hc, hn]
      · simp [scrapeScore, hc]
  · decide

/-- Witness for the amended claim C3 at a concrete non-JSON body without the
`match_score` marker: the score defaults to 5 and the analysis is the raw
body. -/
theorem C3_scrape_amended_witness :
    (analyzeResponse (ApiOutcome.success "plain text")).analysis = "plain text"
    ∧ (analyzeResponse (ApiOutcome.success "plain text")).score = 5 :=
  ⟨(C3_scrape_amended "plain text" rfl).1.1,
   (C3_scrape_amended "plain text" rfl).1.2.1 (by decide)⟩

/-- Claim C4: `rank_jobs` returns the same records as the analysis pass
sorted by `match_score` in non-increasing order, equal scores keeping their
relative input order (the per-score sublists are unchanged); on the spec's
example with scores 3, 9, 1, 9, 5 the output is B, D, E, A, C. -/
theorem C4_rank_jobs_sorting (resume : String) (oracle : Nat → ApiOutcome)
    (jobs : List JobListing) :
    List.Perm (rank_jobs resume oracle jobs) (analyzeAll resume oracle jobs)
    ∧ (rank_jobs resume oracle jobs).Pairwise (fun a b => b.match_score ≤ a.match_score)
    ∧ (∀ v : Int, (rank_jobs resume oracle jobs).filter (fun k => k.match_score == v)
        = (analyzeAll resume oracle jobs).filter (fun k => k.match_score == v))
    ∧ (rank_jobs "r" exampleOracle exampleJobs).map (fun j => (j.company, j.match_score))
        = [("B", 9), ("D", 9), ("E", 5), ("A", 3), ("C", 1)] :=
  ⟨sortJobsDesc_perm (analyzeAll resume oracle jobs),
   sortJobsDesc_sorted (analyzeAll resume oracle jobs),
   fun v => sortJobsDesc_filter v (analyzeAll resume oracle jobs),
   by decide⟩

/-- Claim C5: `parse_google_search_json` returns an empty sequence (not an
error) when `items` is absent or empty; otherwise it produces one record per
well-formed item in input order with title defaulting to "Unknown Position",
url defaulting to the empty string, the snippet stored untruncated as the
description, and a per-item exception (a non-object item) skipping only that
item. -/
theorem C5_parse_snapshot :
    parse_google_search_json ⟨Option.none⟩ = []
    ∧ parse_google_search_json ⟨some []⟩ = []
    ∧ ∀ l : List SearchItem, parse_google_search_json ⟨some l⟩ =
        l.filterMap (fun it =>
          match it with
          | SearchItem.malformed => Option.none
          | SearchItem.entry t u sn =>
            some ⟨t.getD "Unknown Position",
                  extract_company_name (u.getD "") (t.getD "Unknown Position"),
                  u.getD "", sn.getD "", 0, ""⟩) := by
  refine ⟨rfl, rfl, ?_⟩
  intro l
  cases l with
  | nil => rfl
  | cons it l =>
    show parseItemsLoop (it :: l) = _
    exact parseItemsLoop_eq_filterMap (it :: l)

/-- Claim C6, counterexample: with an empty url (the default when an item has
no link) and a title without " hiring ", the host is empty, has a single
(empty) label, and `capitalize` of it is returned — the empty string — so the
claimed non-emptiness of the extracted display name is false. -/
theorem C6_company_name_counterexample :
    extract_company_name "" "Backend Engineer" = "" := by decide

/-- Claim C6 as amended: `extract_company_name` is a total function (never
raises), and on any exception during extraction — in this model the
`ValueError` that `urlparse` raises on a malformed authority — it returns the
literal "Unknown Company"; the returned name may however be empty. -/
theorem C6_company_name_amended (url title e : String)
    (h1 : pyContains title " hiring " = false)
    (h2 : urlparseNetloc url = Except.error e) :
    extract_company_name url title = "Unknown Company" := by
  unfold extract_company_name
  rw [if_neg (by simp [h1]), h2]

/-- Witness for the amended claim C6: an unbalanced IPv6 bracket makes the
`urlparse` model raise, and the fallback name is returned. -/
theorem C6_company_name_amended_witness :
    extract_company_name "http://[" "Backend Engineer" = "Unknown Company" :=
  C6_company_name_amended "http://[" "Backend Engineer" "Invalid IPv6 URL"
    (by decide) rfl

/-- Claim C7: the title-based " hiring " rule wins over the domain rule, and
the domain rule capitalizes the second-to-last host label, on the spec's two
concrete examples. -/
theorem C7_company_name_examples :
    extract_company_name "https://boards.greenhouse.io/acme/jobs/1"
        "Acme Corp hiring Backend Engineer" = "Acme Corp"
    ∧ extract_company_name "https://careers.widgetco.com/job/42"
        "Backend Engineer" = "Widgetco" := by
  refine ⟨by decide, by decide⟩

/-- Claim C8: the `rank_jobs` loop is strictly sequential — its trace performs
the analysis calls 1..n in order — and the pacing delay is taken exactly n-1
times, never after the final record: for non-empty input the trace ends with
the n-th analysis call. -/
theorem C8_pacing_delays (resume : String) (oracle : Nat → ApiOutcome)
    (jobs : List JobListing) :
    (rankEvents resume oracle jobs).count PipelineEvent.sleepDelay = jobs.length - 1
    ∧ (rankEvents resume oracle jobs).filterMap analyzeIdx = List.range' 1 jobs.length
    ∧ (jobs ≠ [] →
        (rankEvents resume oracle jobs).getLast?
          = some (PipelineEvent.analyzeCall jobs.length)) :=
  rankLoop_events resume oracle jobs.length jobs 1 (by omega)

/-- Witness for claim C8 on a concrete two-record run: one delay, trace
ending with the second analysis call. -/
theorem C8_pacing_delays_witness :
    (rankEvents "r" (fun _ => ApiOutcome.failure "x")
        [⟨"A", "", "", "", 0, ""⟩, ⟨"B", "", "", "", 0, ""⟩]).count
        PipelineEvent.sleepDelay = 1
    ∧ (rankEvents "r" (fun _ => ApiOutcome.failure "x")
        [⟨"A", "", "", "", 0, ""⟩, ⟨"B", "", "", "", 0, ""⟩]).getLast?
        = some (PipelineEvent.analyzeCall 2) :=
  ⟨(C8_pacing_delays "r" (fun _ => ApiOutcome.failure "x")
      [⟨"A", "", "", "", 0, ""⟩, ⟨"B", "", "", "", 0, ""⟩]).1,
   (C8_pacing_delays "r" (fun _ => ApiOutcome.failure "x")
      [⟨"A", "", "", "", 0, ""⟩, ⟨"B", "", "", "", 0, ""⟩]).2.2 (by decide)⟩

/-- Claim C9: `save_results` stores at the given path a JSON array with one
object per record in rank order — the k-th object carrying exactly rank k+1
and the record's match_score, company, title, url and analysis — overwriting
whatever the file system previously held at that path (and touching no other
path). -/
theorem C9_save_results (fs : String → Option (List SavedEntry))
    (ranked : List JobListing) (filename : String) :
    save_results fs ranked filename filename = some (resultsFrom 1 ranked)
    ∧ (∀ q, q ≠ filename → save_results fs ranked filename q = fs q)
    ∧ (resultsFrom 1 ranked).length = ranked.length
    ∧ (∀ (k : Nat) (j : JobListing), ranked[k]? = some j →
        (resultsFrom 1 ranked)[k]? =
          some (⟨k + 1, j.match_score, j.company, j.title, j.url, j.analysis⟩ : SavedEntry)) := by
  refine ⟨by simp [save_results], ?_, resultsFrom_length ranked 1, ?_⟩
  · intro q hq
    simp [save_results, hq]
  · intro k j hk
    have h := resultsFrom_getElem? ranked 1 k j hk
    simpa [Nat.add_comm] using h

/-- Witness for claim C9 on a one-record list: the write lands at the path,
another path is untouched, and the single entry has rank 1 and the record's
fields. -/
theorem C9_save_results_witness :
    save_results (fun _ => Option.none) [⟨"T", "C", "u", "d", 4, "a"⟩] "out.json" "out.json"
        = some [⟨1, 4, "C", "T", "u", "a"⟩]
    ∧ save_results (fun _ => Option.none) [⟨"T", "C", "u", "d", 4, "a"⟩] "out.json" "other"
        = Option.none
    ∧ (resultsFrom 1 [⟨"T", "C", "u", "d", 4, "a"⟩])[0]? = some ⟨1, 4, "C", "T", "u", "a"⟩ :=
  ⟨(C9_save_results (fun _ => Option.none) [⟨"T", "C", "u", "d", 4, "a"⟩] "out.json").1,
   (C9_save_results (fun _ => Option.none) [⟨"T", "C", "u", "d", 4, "a"⟩] "out.json").2.1
     "other" (by decide),
   (C9_save_results (fun _ => Option.none) [⟨"T", "C", "u", "d", 4, "a"⟩] "out.json").2.2.2
     0 ⟨"T", "C", "u", "d", 4, "a"⟩ rfl⟩

/-- Claim C10: when the response body is valid JSON but is not an object or
lacks the `match_score` or `analysis` key, the `KeyError`/`TypeError` raised
by the field access lands in the generic failure branch: the result is the
error sentinel 0 — not the scrape fallback 5 — with an analysis beginning
"Analysis failed:". -/
theorem C10_json_missing_keys (raw : String) (v : PyValue)
    (h1 : jsonLoads raw = some v)
    (h2 : hasScoreAndAnalysisKeys v = false) :
    (analyzeResponse (ApiOutcome.success raw)).score = 0
    ∧ pyStartswith (analyzeResponse (ApiOutcome.success raw)).analysis
        "Analysis failed:" = true := by
  have herr : ∃ msg, extractFields v = Except.error msg := by
    cases v with
    | dict kvs =>
      simp only [hasScoreAndAnalysisKeys] at h2
      rw [extractFields_dict_eq]
      cases hms : dictGet kvs "match_score" with
      | none => exact ⟨_, rfl⟩
      | some sv =>
        cases has : dictGet kvs "analysis" with
        | none => exact ⟨_, rfl⟩
        | some av =>
          rw [hms, has] at h2
          simp at h2
    | int n => exact ⟨_, rfl⟩
    | float lx => exact ⟨_, rfl⟩
    | str s => exact ⟨_, rfl⟩
    | bool b => exact ⟨_, rfl⟩
    | null => exact ⟨_, rfl⟩
    | list xs => exact ⟨_, rfl⟩
  obtain ⟨msg, he⟩ := herr
  have hres : analyzeResponse (ApiOutcome.success raw)
      = ⟨0, "Analysis failed: " ++ msg⟩ := by
    rw [analyzeResponse_decoded raw v h1, he]
  rw [hres]
  exact ⟨rfl, analysisFailed_startswith msg⟩

/-- Witness for claim C10 on a concrete valid-JSON array body: score 0 and a
failure-prefixed analysis, not the neutral 5. -/
theorem C10_json_missing_keys_witness :
    (analyzeResponse (ApiOutcome.success "[1, 2]")).score = 0
    ∧ pyStartswith (analyzeResponse (ApiOutcome.success "[1, 2]")).analysis
        "Analysis failed:" = true :=
  C10_json_missing_keys "[1, 2]" (PyValue.list [PyValue.int 1, PyValue.int 2]) rfl rfl
